import Mathlib

/-!
Shallow embedding of the Secure-Flask-Portal repository (src/utils.py,
src/models.py, src/app.py, src/forms.py, src/init_db.py) and proofs about it.

Python strings are modelled by Lean `String` (in this toolchain a list of
characters), Python `None`-able values by `Option`, exceptions by `Except`,
SQLite tables by lists of row structures, and the Fernet cipher by a symbolic
authenticated-encryption token carrying the key, the per-call nonce and the
plaintext.  Randomness (Fernet's fresh IV) is made explicit as a nonce
argument supplied by the caller of `encrypt_text`.
-/

deriving instance DecidableEq for Except

namespace SecurePortal

/-! ## Python string helpers -/

/-- Characters stripped by Python `str.strip()` with no argument. -/
def isPyWhitespace (c : Char) : Bool :=
  c = ' ' || c = '\t' || c = '\n' || c = '\r' || c = '\x0b' || c = '\x0c'

/-- Python `s.strip()`: remove leading and trailing whitespace. -/
def pyStrip (s : String) : String :=
  ⟨((s.data.dropWhile isPyWhitespace).reverse.dropWhile isPyWhitespace).reverse⟩

theorem dropWhile_eq_self_of_all {p : Char → Bool} {l : List Char}
    (h : ∀ c ∈ l, p c = false) : l.dropWhile p = l := by
  cases l with
  | nil => rfl
  | cons c t =>
    have hc : p c = false := h c (List.mem_cons_self c t)
    simp [List.dropWhile, hc]

/-- A string with no whitespace characters at all is unchanged by `pyStrip`. -/
theorem pyStrip_eq_self {s : String} (h : ∀ c ∈ s.data, isPyWhitespace c = false) :
    pyStrip s = s := by
  unfold pyStrip
  rw [dropWhile_eq_self_of_all h]
  rw [dropWhile_eq_self_of_all (by intro c hc; exact h c (List.mem_reverse.mp hc))]
  rw [List.reverse_reverse]

/-! ## Field Cipher (src/utils.py lines 57-85)

`encrypt_text` strips the plaintext and Fernet-encrypts it with a fresh
random IV; `decrypt_text` authenticates and decrypts, raising `InvalidToken`
on a malformed token or one produced under a different key. -/

/-- A Fernet token is modelled symbolically: a well-formed token records the
key it was produced under, the random nonce of that call, and the plaintext;
`garbage` stands for bytes that are not a valid token at all. -/
inductive CipherText where
  | token (key : Nat) (nonce : Nat) (plain : String)
  | garbage (id : Nat)
deriving DecidableEq

inductive DecryptError where
  | invalidToken
deriving DecidableEq

/-- `utils.encrypt_text`: strip surrounding whitespace, encode, encrypt.
The nonce argument makes Fernet's fresh per-call randomness explicit. -/
def encrypt_text (key : Nat) (nonce : Nat) (plain : String) : CipherText :=
  CipherText.token key nonce (pyStrip plain)

/-- `utils.decrypt_text`: decrypt and authenticate; fails with
`InvalidToken` when the bytes are malformed or were encrypted under a
different key. -/
def decrypt_text (key : Nat) (c : CipherText) : Except DecryptError String :=
  match c with
  | CipherText.token k _ p =>
      if k = key then Except.ok p else Except.error DecryptError.invalidToken
  | CipherText.garbage _ => Except.error DecryptError.invalidToken

/-! ## Key Manager (src/utils.py lines 32-64 and src/init_db.py lines 23-42) -/

/-- The sources a key can be resolved from: the FERNET_KEY environment
variable (`none` when unset; Python treats the empty string as falsy) and the
key.key file at the project root (`none` when the file does not exist). -/
structure KeyWorld where
  envKey : Option String
  keyFileBytes : Option String
deriving DecidableEq

inductive KeyError where
  | keyNotFound
deriving DecidableEq

/-- `utils._load_fernet_key`: environment first, then the key.key file;
raises RuntimeError when neither source yields a key.  It never generates
a key. -/
def load_fernet_key (w : KeyWorld) : Except KeyError String :=
  match w.envKey with
  | some k =>
      if k = "" then
        match w.keyFileBytes with
        | some bs => Except.ok bs
        | none => Except.error KeyError.keyNotFound
      else Except.ok k
  | none =>
      match w.keyFileBytes with
      | some bs => Except.ok bs
      | none => Except.error KeyError.keyNotFound

/-- `init_db.ensure_fernet_key`: environment first, then the file (exporting
it to the environment), else generate a fresh key (`freshKey` stands for
`Fernet.generate_key()`), write it to key.key, `os.chmod` the file to 0o600,
and export it to the environment.  Returns the key, the updated world, and
`some mode` when a new key file was written with that permission mode. -/
def ensure_fernet_key (w : KeyWorld) (freshKey : String) :
    String × KeyWorld × Option Nat :=
  match w.envKey with
  | some k =>
      if k = "" then
        match w.keyFileBytes with
        | some bs => (bs, ⟨some bs, some bs⟩, none)
        | none => (freshKey, ⟨some freshKey, some freshKey⟩, some 0o600)
      else (k, w, none)
  | none =>
      match w.keyFileBytes with
      | some bs => (bs, ⟨some bs, some bs⟩, none)
      | none => (freshKey, ⟨some freshKey, some freshKey⟩, some 0o600)

/-! ## Decimal digits and number parsing/formatting helpers -/

/-- The decimal digit character for `d` (callers pass `d < 10`; larger
values clamp to the last pattern, which is never reached in use). -/
def digitChar (d : Nat) : Char :=
  match d with
  | 0 => '0' | 1 => '1' | 2 => '2' | 3 => '3' | 4 => '4'
  | 5 => '5' | 6 => '6' | 7 => '7' | 8 => '8' | _ => '9'

theorem digitChar_not_whitespace (d : Nat) : isPyWhitespace (digitChar d) = false := by
  unfold digitChar
  split <;> rfl

/-- Value of a list of decimal digit characters, most significant first. -/
def digitsVal (ds : List Char) : Nat :=
  ds.foldl (fun acc c => acc * 10 + (c.toNat - 48)) 0

/-- Decimal representation of a natural number: fuelled worker (the fuel
`n + 1` always suffices, a number has at most `n + 1` digits). -/
def natToDigitsAux (fuel n : Nat) : List Char :=
  match fuel with
  | 0 => []
  | f + 1 =>
      if n < 10 then [digitChar n]
      else natToDigitsAux f (n / 10) ++ [digitChar (n % 10)]

/-- Decimal representation of a natural number, as a list of digit
characters (mirrors how Python renders the integer part of a number). -/
def natToDigits (n : Nat) : List Char := natToDigitsAux (n + 1) n

theorem natToDigitsAux_not_whitespace (fuel : Nat) :
    ∀ n, ∀ c ∈ natToDigitsAux fuel n, isPyWhitespace c = false := by
  induction fuel with
  | zero => intro n c hc; cases hc
  | succ f ih =>
    intro n c hc
    simp only [natToDigitsAux] at hc
    split at hc
    · rw [List.mem_singleton.mp hc]
      exact digitChar_not_whitespace n
    · rcases List.mem_append.mp hc with h1 | h2
      · exact ih (n / 10) c h1
      · rw [List.mem_singleton.mp h2]
        exact digitChar_not_whitespace (n % 10)

theorem natToDigits_not_whitespace (n : Nat) :
    ∀ c ∈ natToDigits n, isPyWhitespace c = false :=
  natToDigitsAux_not_whitespace (n + 1) n

/-- Decimal string of a natural number. -/
def natToDecString (n : Nat) : String := ⟨natToDigits n⟩

/-- A Python float value as it arises in this application: an exact
decimal `num / 10 ^ scale` (every literal the forms accept is a finite
decimal, represented here exactly rather than as a binary double). -/
structure PyNum where
  num : Int
  scale : Nat
deriving DecidableEq

/-- Round the exact fraction `n / d` (with `d > 0`) to the nearest
integer, ties to even — the rounding used by Python's fixed-point
`format`. -/
def roundHalfEvenInt (n d : Int) : Int :=
  let q := Int.fdiv n d
  let r := n - q * d
  if 2 * r < d then q
  else if d < 2 * r then q + 1
  else if q % 2 = 0 then q else q + 1

/-- Python `f"{x:.2f}"`: fixed-point rendering with exactly two digits
after the decimal point. -/
def formatTwoDec (x : PyNum) : String :=
  let cents : Int := roundHalfEvenInt (x.num * 100) ((10 : Int) ^ x.scale)
  let sign : List Char := if cents < 0 then ['-'] else []
  let n : Nat := cents.natAbs
  let fracPart : List Char := [digitChar (n % 100 / 10), digitChar (n % 10)]
  ⟨sign ++ natToDigits (n / 100) ++ '.' :: fracPart⟩

theorem formatTwoDec_no_whitespace (q : PyNum) :
    ∀ c ∈ (formatTwoDec q).data, isPyWhitespace c = false := by
  intro c hc
  simp only [formatTwoDec] at hc
  rcases List.mem_append.mp hc with h1 | h2
  · rcases List.mem_append.mp h1 with h3 | h4
    · split at h3
      · rw [List.mem_singleton.mp h3]; rfl
      · cases h3
    · exact natToDigits_not_whitespace _ c h4
  · rcases List.mem_cons.mp h2 with rfl | h5
    · rfl
    · rcases List.mem_cons.mp h5 with rfl | h6
      · exact digitChar_not_whitespace _
      · rcases List.mem_cons.mp h6 with rfl | h7
        · exact digitChar_not_whitespace _
        · cases h7

theorem pyStrip_formatTwoDec (q : PyNum) : pyStrip (formatTwoDec q) = formatTwoDec q :=
  pyStrip_eq_self (formatTwoDec_no_whitespace q)

/-! ## Input validators (src/utils.py lines 88-110) -/

/-- Gregorian leap-year rule (as implemented by Python's datetime). -/
def isLeapYear (y : Nat) : Bool :=
  (y % 4 = 0 && y % 100 ≠ 0) || y % 400 = 0

/-- Number of days in month `m` of year `y`. -/
def daysInMonth (y m : Nat) : Nat :=
  if m = 2 then (if isLeapYear y then 29 else 28)
  else if m = 4 || m = 6 || m = 9 || m = 11 then 30
  else 31

/-- Split a character list on a separator character; mirrors Python
`str.split(sep)` (an empty input yields one empty field). -/
def splitOnChar (sep : Char) : List Char → List (List Char)
  | [] => [[]]
  | c :: rest =>
      let r := splitOnChar sep rest
      if c = sep then [] :: r
      else
        match r with
        | [] => [[c]]
        | h :: t => (c :: h) :: t

/-- `utils.is_valid_date`: non-empty after stripping, and accepted by
`datetime.strptime(s, "%Y-%m-%d")`.  strptime's pattern requires exactly
four year digits and one or two month/day digits; the resulting date must
be calendar-valid (month 1-12, day within the month, year at least 1). -/
def is_valid_date (date_str : String) : Bool :=
  let cs := (pyStrip date_str).data
  match splitOnChar '-' cs with
  | [ys, ms, ds] =>
      ys.length = 4 && ys.all Char.isDigit &&
      decide (1 ≤ ms.length) && decide (ms.length ≤ 2) && ms.all Char.isDigit &&
      decide (1 ≤ ds.length) && decide (ds.length ≤ 2) && ds.all Char.isDigit &&
      (let y := digitsVal ys
       let m := digitsVal ms
       let d := digitsVal ds
       decide (1 ≤ y) && decide (1 ≤ m) && decide (m ≤ 12) &&
       decide (1 ≤ d) && decide (d ≤ daysInMonth y m))
  | _ => false

/-- Parse an optionally signed all-digit suffix (the exponent digits of a
float literal); fails on an empty digit string. -/
def parseSignedDigits (cs : List Char) : Option Int :=
  match cs with
  | '+' :: rest =>
      if rest ≠ [] && rest.all Char.isDigit then some (digitsVal rest) else none
  | '-' :: rest =>
      if rest ≠ [] && rest.all Char.isDigit then some (-(digitsVal rest : Int)) else none
  | _ =>
      if cs ≠ [] && cs.all Char.isDigit then some (digitsVal cs) else none

/-- Parse what may follow the mantissa of a float literal: nothing, or an
`e`/`E` exponent. -/
def parseExpTail (cs : List Char) : Option Int :=
  match cs with
  | [] => some 0
  | 'e' :: rest => parseSignedDigits rest
  | 'E' :: rest => parseSignedDigits rest
  | _ => none

/-- Python `float(s)` on finite decimal literals, with doubles modelled as
exact rationals: optional surrounding whitespace, optional sign, digits
with an optional fractional part (at least one digit overall), optional
decimal exponent.  The special forms inf/infinity/nan and underscore
digit separators are outside this model and map to `none`. -/
def pyFloat (s : String) : Option PyNum :=
  let cs := (pyStrip s).data
  let sgn : Int := match cs with
    | '-' :: _ => -1
    | _ => 1
  let cs1 := match cs with
    | '+' :: rest => rest
    | '-' :: rest => rest
    | _ => cs
  let intPart := cs1.takeWhile Char.isDigit
  let rest1 := cs1.dropWhile Char.isDigit
  let fracPart := match rest1 with
    | '.' :: r => r.takeWhile Char.isDigit
    | _ => []
  let rest2 := match rest1 with
    | '.' :: r => r.dropWhile Char.isDigit
    | _ => rest1
  if intPart = [] && fracPart = [] then none
  else
    match parseExpTail rest2 with
    | none => none
    | some e =>
        let mant : Int := digitsVal intPart * (10 : Int) ^ fracPart.length + digitsVal fracPart
        if 0 ≤ e then
          some { num := sgn * mant * (10 : Int) ^ e.toNat, scale := fracPart.length }
        else
          some { num := sgn * mant, scale := fracPart.length + (-e).toNat }

/-- `utils.is_positive_number`: non-empty after stripping, parses as a
float, and is strictly greater than zero. -/
def is_positive_number (value : String) : Bool :=
  if pyStrip value = "" then false
  else
    match pyFloat value with
    | some q => decide (0 < q.num)
    | none => false

/-! ## Access policy (src/app.py lines 47-78, 186-247)

A denied request is rendered as a "Page not found" error page, so the guard
outcome is Allow or Deny.  An authenticated session always carries the
user's security level, which is NOT NULL in the Users schema, so a missing
(`none`) level coincides with the absence of an authenticated session, the
case `login_required` rejects. -/

inductive Outcome where
  | allow
  | deny
deriving DecidableEq

/-- `app.requires_security_level(min_level)`: deny when the session has no
security level or the level is numerically below `min_level`; otherwise run
the view. -/
def requires_security_level (min_level : Int) (security_level : Option Int) : Outcome :=
  match security_level with
  | none => Outcome.deny
  | some lvl => if lvl < min_level then Outcome.deny else Outcome.allow

/-- Guard of `/add_employee`: `login_required` then
`requires_security_level(1)`; the handler has no further level check. -/
def add_employee_guard (level : Option Int) : Outcome :=
  requires_security_level 1 level

/-- Guard of `/list_employees`: `requires_security_level(1)` followed by the
handler's own re-check `session.get("security_level") not in (1, 2)`. -/
def list_employees_guard (level : Option Int) : Outcome :=
  match requires_security_level 1 level with
  | Outcome.deny => Outcome.deny
  | Outcome.allow =>
      if level = some 1 ∨ level = some 2 then Outcome.allow else Outcome.deny

/-- Guard of `/list_payraises`: `requires_security_level(2)` followed by the
handler's own re-check `session.get("security_level") != 2`. -/
def list_payraises_guard (level : Option Int) : Outcome :=
  match requires_security_level 2 level with
  | Outcome.deny => Outcome.deny
  | Outcome.allow =>
      if level = some 2 then Outcome.allow else Outcome.deny

/-- Guard of `/add_payraise`: only `login_required`; every authenticated
session reaches the handler. -/
def add_payraise_guard (level : Option Int) : Outcome :=
  match level with
  | none => Outcome.deny
  | some _ => Outcome.allow

/-- The four gated operations of the access matrix. -/
inductive Requirement where
  | addEmployee
  | listEmployees
  | listAllPayraises
  | addOwnPayraise
deriving DecidableEq

/-- The route guards of src/app.py, by gated operation. -/
def route_guard (level : Option Int) : Requirement → Outcome
  | Requirement.addEmployee => add_employee_guard level
  | Requirement.listEmployees => list_employees_guard level
  | Requirement.listAllPayraises => list_payraises_guard level
  | Requirement.addOwnPayraise => add_payraise_guard level

/-- The §4.3 access matrix as the spec states it, for comparison with the
code's guards: add-employee and list-employees allowed for levels 1 and 2,
list-all-payraises only for level 2, add-own-payraise for every
authenticated level, and a missing level always denied. -/
def specAccessMatrix (level : Option Int) : Requirement → Outcome
  | Requirement.addEmployee =>
      if level = some 1 ∨ level = some 2 then Outcome.allow else Outcome.deny
  | Requirement.listEmployees =>
      if level = some 1 ∨ level = some 2 then Outcome.allow else Outcome.deny
  | Requirement.listAllPayraises =>
      if level = some 2 then Outcome.allow else Outcome.deny
  | Requirement.addOwnPayraise =>
      if level = some 1 ∨ level = some 2 ∨ level = some 3 then Outcome.allow
      else Outcome.deny

/-! ## Record Store (src/models.py) -/

structure EmployeeRow where
  id : Nat
  name : String
  email : String
  department : String
  security_level : Int
deriving DecidableEq

structure UserRow where
  id : Nat
  username : String
  password_hash : String
  full_name : String
  security_level : Int
  emp_id : Option Nat
deriving DecidableEq

structure PayRaiseRow where
  id : Nat
  emp_id : Nat
  user_id : Nat
  payraise_date_encrypted : CipherText
  raiseamt_encrypted : CipherText
  comments_encrypted : Option CipherText
deriving DecidableEq

/-- The three tables of app.db plus the AUTOINCREMENT counter of
EmpPayRaise; rows appear in insertion order. -/
structure Database where
  employees : List EmployeeRow
  users : List UserRow
  payraises : List PayRaiseRow
  nextPayRaiseId : Nat
deriving DecidableEq

inductive StoreError where
  | integrityViolation
deriving DecidableEq

/-- `models._get_connection` opens a plain `sqlite3.connect` without
issuing `PRAGMA foreign_keys = ON`, so on every connection used by
models.py SQLite leaves foreign-key enforcement at its default: off.
(Only init_db.py's own connection turns the pragma on.) -/
def modelsForeignKeysOn : Bool := false

/-- SQLite `INSERT INTO EmpPayRaise`: the FOREIGN KEY clauses declared in
the schema are checked only when the connection has `PRAGMA foreign_keys`
on; otherwise the row is inserted as-is with the next AUTOINCREMENT id. -/
def sqliteInsertPayRaise (foreignKeysOn : Bool) (db : Database) (emp_id user_id : Nat)
    (dateCt amtCt : CipherText) (commentsCt : Option CipherText) :
    Except StoreError (Database × Nat) :=
  if foreignKeysOn &&
      (!(db.employees.any fun e => e.id == emp_id) ||
       !(db.users.any fun u => u.id == user_id)) then
    Except.error StoreError.integrityViolation
  else
    Except.ok
      ({ db with
          payraises := db.payraises ++
            [{ id := db.nextPayRaiseId, emp_id := emp_id, user_id := user_id,
               payraise_date_encrypted := dateCt, raiseamt_encrypted := amtCt,
               comments_encrypted := commentsCt }],
          nextPayRaiseId := db.nextPayRaiseId + 1 },
       db.nextPayRaiseId)

/-- `models.create_payraise`: encrypt date, amount (rendered with
`f"{float(raise_amt):.2f}"`) and the optional comment, then insert.
`key` is the resolved Fernet key and `nd`, `na`, `nc` the fresh nonces of
the three encryption calls. -/
def create_payraise (key nd na nc : Nat) (db : Database) (user_id emp_id : Nat)
    (date_str : String) (raise_amt : PyNum) (comments : Option String) :
    Except StoreError (Database × Nat) :=
  let encrypted_date := encrypt_text key nd (pyStrip date_str)
  let encrypted_amt := encrypt_text key na (formatTwoDec raise_amt)
  let encrypted_comments :=
    match comments with
    | some cstr => if cstr = "" then none else some (encrypt_text key nc (pyStrip cstr))
    | none => none
  sqliteInsertPayRaise modelsForeignKeysOn db emp_id user_id
    encrypted_date encrypted_amt encrypted_comments

/-- Insert a row into a list kept in descending id order. -/
def insertByIdDesc (r : PayRaiseRow) : List PayRaiseRow → List PayRaiseRow
  | [] => [r]
  | h :: t => if h.id ≤ r.id then r :: h :: t else h :: insertByIdDesc r t

/-- `ORDER BY pr.id DESC`. -/
def sortByIdDesc (rs : List PayRaiseRow) : List PayRaiseRow :=
  rs.foldr insertByIdDesc []

/-- Look up an employee row by primary key (first match). -/
def lookupEmployee (db : Database) (eid : Nat) : Option EmployeeRow :=
  db.employees.find? fun e => e.id == eid

/-- `JOIN Employees e ON e.id = pr.emp_id`: pair each pay-raise row with
its employee; rows with a dangling emp_id produce no result row. -/
def joinEmployees (db : Database) (rows : List PayRaiseRow) :
    List (EmployeeRow × PayRaiseRow) :=
  rows.filterMap fun r => (lookupEmployee db r.emp_id).map fun e => (e, r)

/-- Run a fallible function over a list, stopping at the first error —
the behaviour of a Python for-loop in which `decrypt_text` may raise. -/
def mapExcept {α β ε : Type} (f : α → Except ε β) : List α → Except ε (List β)
  | [] => Except.ok []
  | a :: l =>
      match f a with
      | Except.error e => Except.error e
      | Except.ok b =>
          match mapExcept f l with
          | Except.error e => Except.error e
          | Except.ok bs => Except.ok (b :: bs)

/-- Decrypted pay-raise record as returned by `get_payraises_for_user`. -/
structure UserPayRaiseView where
  employee_name : String
  payraise_date : String
  raise_amount : String
  comments : String
deriving DecidableEq

/-- Decrypted pay-raise record as returned by `get_all_payraises`. -/
structure AllPayRaiseView where
  id : Nat
  employee_name : String
  user_id : Nat
  payraise_date : String
  raise_amount : String
  comments : String
deriving DecidableEq

/-- Decrypt the optional comments blob; a NULL blob is rendered as "". -/
def decryptComments (key : Nat) (c : Option CipherText) : Except DecryptError String :=
  match c with
  | some ct => decrypt_text key ct
  | none => Except.ok ""

/-- Build one decrypted row of the per-user listing; the first
`decrypt_text` exception propagates. -/
def toUserView (key : Nat) (p : EmployeeRow × PayRaiseRow) :
    Except DecryptError UserPayRaiseView :=
  match decrypt_text key p.2.payraise_date_encrypted with
  | Except.error e => Except.error e
  | Except.ok d =>
      match decrypt_text key p.2.raiseamt_encrypted with
      | Except.error e => Except.error e
      | Except.ok a =>
          match decryptComments key p.2.comments_encrypted with
          | Except.error e => Except.error e
          | Except.ok c =>
              Except.ok { employee_name := p.1.name, payraise_date := d,
                          raise_amount := a, comments := c }

/-- Build one decrypted row of the all-users listing; the first
`decrypt_text` exception propagates. -/
def toAllView (key : Nat) (p : EmployeeRow × PayRaiseRow) :
    Except DecryptError AllPayRaiseView :=
  match decrypt_text key p.2.payraise_date_encrypted with
  | Except.error e => Except.error e
  | Except.ok d =>
      match decrypt_text key p.2.raiseamt_encrypted with
      | Except.error e => Except.error e
      | Except.ok a =>
          match decryptComments key p.2.comments_encrypted with
          | Except.error e => Except.error e
          | Except.ok c =>
              Except.ok { id := p.2.id, employee_name := p.1.name, user_id := p.2.user_id,
                          payraise_date := d, raise_amount := a, comments := c }

/-- Row sequence produced by the SQL of `get_payraises_for_user`:
filter on user_id, order by id descending, join with Employees. -/
def userQueryRows (db : Database) (uid : Nat) : List (EmployeeRow × PayRaiseRow) :=
  joinEmployees db (sortByIdDesc (db.payraises.filter fun r => r.user_id == uid))

/-- Row sequence produced by the SQL of `get_all_payraises`. -/
def allQueryRows (db : Database) : List (EmployeeRow × PayRaiseRow) :=
  joinEmployees db (sortByIdDesc db.payraises)

/-- `models.get_payraises_for_user`: decrypt every sensitive field of every
row of the query; an exception from `decrypt_text` propagates and aborts
the whole listing. -/
def get_payraises_for_user (key : Nat) (db : Database) (uid : Nat) :
    Except DecryptError (List UserPayRaiseView) :=
  mapExcept (toUserView key) (userQueryRows db uid)

/-- `models.get_all_payraises`: as above, over every user's rows. -/
def get_all_payraises (key : Nat) (db : Database) :
    Except DecryptError (List AllPayRaiseView) :=
  mapExcept (toAllView key) (allQueryRows db)

/-! ## Forms and the add_payraise handler (src/forms.py, src/app.py lines 153-183) -/

/-- `forms.PayRaiseForm` after `from_mapping`. -/
structure PayRaiseFormData where
  payraise_date : String
  raise_amount : String
  comments : String
  errors : List String
deriving DecidableEq

/-- `PayRaiseForm.from_mapping`: strip each raw field (an absent field
counts as ""), validate the date and the amount, collect the error
messages. -/
def payRaiseForm_from_mapping (payraise_date raise_amount comments : Option String) :
    PayRaiseFormData :=
  let d := pyStrip (payraise_date.getD "")
  let a := pyStrip (raise_amount.getD "")
  let c := pyStrip (comments.getD "")
  let errs :=
    (if is_valid_date d then [] else ["PayRaiseDate must be a valid date (YYYY-MM-DD)."]) ++
    (if is_positive_number a then [] else ["RaiseAmt must be a positive number."])
  { payraise_date := d, raise_amount := a, comments := c, errors := errs }

/-- The authenticated session as set by the login handler:
`{user_id, security_level, emp_id}`; `security_level` comes from the
NOT NULL Users column, `emp_id` from the nullable foreign key. -/
structure SessionData where
  user_id : Nat
  security_level : Int
  emp_id : Option Nat
deriving DecidableEq

/-- Outcome of a POST to `/add_payraise` by an authenticated user. -/
inductive AddPayraiseResult where
  | inputErrorRedirect
  | notFound
  | recordAdded (rid : Nat)
  | serverError
deriving DecidableEq

/-- POST branch of `app.add_payraise` (after `login_required`): reject on
form errors; render the "Page not found" error page when the session has
no linked employee (`emp_id is None`); otherwise parse the amount with
`float(...)` and persist via `create_payraise`.  An exception from
`float` or the store surfaces as a server error. -/
def add_payraise_post (key nd na nc : Nat) (sess : SessionData)
    (form : PayRaiseFormData) (db : Database) : AddPayraiseResult × Database :=
  if form.errors ≠ [] then (AddPayraiseResult.inputErrorRedirect, db)
  else
    match sess.emp_id with
    | none => (AddPayraiseResult.notFound, db)
    | some eid =>
        match pyFloat form.raise_amount with
        | none => (AddPayraiseResult.serverError, db)
        | some amt =>
            match create_payraise key nd na nc db sess.user_id eid form.payraise_date amt
                (if form.comments = "" then none else some form.comments) with
            | Except.ok (db2, rid) => (AddPayraiseResult.recordAdded rid, db2)
            | Except.error _ => (AddPayraiseResult.serverError, db)

/-! ## Concrete stores for evaluation -/

/-- The Employees table seeded by init_db.py. -/
def seedEmployees : List EmployeeRow :=
  [{ id := 1, name := "Alice Admin", email := "alice.admin@example.com",
     department := "Executive", security_level := 1 },
   { id := 2, name := "Bob Manager", email := "bob.manager@example.com",
     department := "Operations", security_level := 2 },
   { id := 3, name := "Cara Staff", email := "cara.staff@example.com",
     department := "Support", security_level := 3 }]

/-- The Users table seeded by init_db.py (password hashes are salted and
opaque; stand-in constants are used). -/
def seedUsers : List UserRow :=
  [{ id := 1, username := "admin1", password_hash := "h1", full_name := "Alice Admin",
     security_level := 1, emp_id := some 1 },
   { id := 2, username := "manager", password_hash := "h2", full_name := "Bob Manager",
     security_level := 2, emp_id := some 2 },
   { id := 3, username := "staff", password_hash := "h3", full_name := "Cara Staff",
     security_level := 3, emp_id := some 3 }]

/-- The store produced by init_db.py under key `key`: the three seeded
employees and users and the one seeded pay raise of the admin user. -/
def seedDb (key : Nat) : Database :=
  { employees := seedEmployees,
    users := seedUsers,
    payraises :=
      [{ id := 1, emp_id := 1, user_id := 1,
         payraise_date_encrypted := encrypt_text key 0 "2025-01-01",
         raiseamt_encrypted := encrypt_text key 1 "1250.00",
         comments_encrypted := some (encrypt_text key 2 "Annual merit increase") }],
    nextPayRaiseId := 2 }

/-- A store in which the second pay-raise row's amount blob is corrupted
(not a valid Fernet token). -/
def corruptDb : Database :=
  { employees := seedEmployees,
    users := seedUsers,
    payraises :=
      [{ id := 1, emp_id := 1, user_id := 1,
         payraise_date_encrypted := encrypt_text 0 0 "2025-01-01",
         raiseamt_encrypted := encrypt_text 0 1 "1250.00",
         comments_encrypted := none },
       { id := 2, emp_id := 1, user_id := 1,
         payraise_date_encrypted := encrypt_text 0 2 "2025-02-01",
         raiseamt_encrypted := CipherText.garbage 0,
         comments_encrypted := none }],
    nextPayRaiseId := 3 }

/-- A store with no rows at all. -/
def emptyDb : Database :=
  { employees := [], users := [], payraises := [], nextPayRaiseId := 1 }

/-! ## Theorems -/

/-- C1: the route guards do not realise the §4.3 access matrix.  At the
failing input — an authenticated session with security level 3 requesting
add-employee — `requires_security_level(1)` passes (any level numerically
at least 1 passes, and the add_employee handler, unlike list_employees,
has no exact-set re-check), so the code allows what the matrix denies. -/
theorem addEmployee_level3_allowed_contra_matrix :
    route_guard (some 3) Requirement.addEmployee = Outcome.allow ∧
    specAccessMatrix (some 3) Requirement.addEmployee = Outcome.deny := by
  exact ⟨by decide, by decide⟩

/-- Outside the add-employee row at level 3, the guards and the §4.3 matrix
agree on every cell of the matrix (levels 1, 2, 3 and missing; all four
gated operations). -/
theorem route_guard_matrix_agreement :
    ∀ req : Requirement,
      route_guard none req = specAccessMatrix none req ∧
      route_guard (some 1) req = specAccessMatrix (some 1) req ∧
      route_guard (some 2) req = specAccessMatrix (some 2) req ∧
      (req = Requirement.addEmployee ∨
        route_guard (some 3) req = specAccessMatrix (some 3) req) := by
  intro req
  cases req <;> refine ⟨by decide, by decide, by decide, ?_⟩
  · exact Or.inl rfl
  all_goals exact Or.inr (by decide)

/-- C3: `create_payraise` performs no referential-integrity check and the
models.py connection never enables SQLite foreign-key enforcement, so an
insert referencing employee id 99 and user id 77 — neither of which exists
in the seeded store — succeeds and persists the dangling row instead of
failing with an integrity error. -/
theorem create_payraise_dangling_refs_persist :
    (seedEmployees.all fun e => e.id != 99) = true ∧
    (seedUsers.all fun u => u.id != 77) = true ∧
    create_payraise 0 2 3 4 (seedDb 0) 77 99 "2025-01-01" ⟨10, 0⟩ none =
      Except.ok
        ({ seedDb 0 with
            payraises := (seedDb 0).payraises ++
              [{ id := 2, emp_id := 99, user_id := 77,
                 payraise_date_encrypted := encrypt_text 0 2 "2025-01-01",
                 raiseamt_encrypted := encrypt_text 0 3 "10.00",
                 comments_encrypted := none }],
            nextPayRaiseId := 3 }, 2) := by
  refine ⟨by decide, by decide, by decide⟩

/-- C4 counterexample: when neither the environment variable nor the key
file exists, the key resolver `utils._load_fernet_key` does not generate a
key — it fails. -/
theorem load_fernet_key_fails_when_unset :
    load_fernet_key ⟨none, none⟩ = Except.error KeyError.keyNotFound := rfl

/-- C4 amended: with neither source present the runtime resolver fails
with RuntimeError; it is the separate setup routine
`init_db.ensure_fernet_key` that generates a fresh key, persists it to
key.key with owner-only permissions (chmod 0o600) and exports it to the
process environment, after which the resolver returns exactly that key. -/
theorem resolver_fails_and_ensure_generates (w : KeyWorld) (fresh : String)
    (henv : w.envKey = none ∨ w.envKey = some "") (hfile : w.keyFileBytes = none) :
    load_fernet_key w = Except.error KeyError.keyNotFound ∧
    ensure_fernet_key w fresh = (fresh, ⟨some fresh, some fresh⟩, some 0o600) ∧
    load_fernet_key ⟨some fresh, some fresh⟩ = Except.ok fresh := by
  refine ⟨?_, ?_, ?_⟩
  · rcases henv with h | h <;> simp [load_fernet_key, h, hfile]
  · rcases henv with h | h <;> simp [ensure_fernet_key, h, hfile]
  · by_cases hf : fresh = "" <;> simp [load_fernet_key, hf]

/-- Witness for the amended C4 statement at the empty world. -/
theorem resolver_fails_and_ensure_generates_witness :
    load_fernet_key ⟨none, none⟩ = Except.error KeyError.keyNotFound ∧
    ensure_fernet_key ⟨none, none⟩ "k" = ("k", ⟨some "k", some "k"⟩, some 0o600) ∧
    load_fernet_key ⟨some "k", some "k"⟩ = Except.ok "k" :=
  resolver_fails_and_ensure_generates ⟨none, none⟩ "k" (Or.inl rfl) rfl

/-- Shared round-trip lemma: decryption inverts encryption under the same
key, up to the strip performed inside `encrypt_text`. -/
theorem decrypt_encrypt_eq (key nonce : Nat) (s : String) :
    decrypt_text key (encrypt_text key nonce s) = Except.ok (pyStrip s) := by
  simp [decrypt_text, encrypt_text]

/-- C5: decrypting an encryption of `x` under the same key returns `x`
stripped of surrounding whitespace (the strip happens inside
`encrypt_text`, before encryption). -/
theorem decrypt_encrypt_roundtrip (key nonce : Nat) (x : String) :
    decrypt_text key (encrypt_text key nonce x) = Except.ok (pyStrip x) :=
  decrypt_encrypt_eq key nonce x

/-- C6: two calls to `encrypt_text` on the same plaintext and key yield
different ciphertexts whenever their Fernet IVs differ — and successive
calls draw fresh random IVs, made explicit here as distinct nonces. -/
theorem encrypt_text_nondeterministic (key : Nat) (s : String) (n1 n2 : Nat)
    (h : n1 ≠ n2) :
    encrypt_text key n1 s ≠ encrypt_text key n2 s := by
  intro hcon
  apply h
  have := CipherText.token.injEq key n1 (pyStrip s) key n2 (pyStrip s)
  rw [encrypt_text, encrypt_text, this] at hcon
  exact hcon.2.1

/-- Witness for C6 at key 5, plaintext "pay", nonces 0 and 1. -/
theorem encrypt_text_nondeterministic_witness :
    (0 : Nat) ≠ 1 ∧ encrypt_text 5 0 "pay" ≠ encrypt_text 5 1 "pay" :=
  ⟨by decide, encrypt_text_nondeterministic 5 "pay" 0 1 (by decide)⟩

/-- C7: the validators return exactly the specified verdicts:
"2025-02-30" is rejected as calendar-invalid although well-shaped, "-5"
and "0" are not positive numbers, "12.50" is. -/
theorem validator_spot_checks :
    is_valid_date "2025-02-30" = false ∧
    is_positive_number "-5" = false ∧
    is_positive_number "0" = false ∧
    is_positive_number "12.50" = true := by
  refine ⟨by decide, by decide, by decide, by decide⟩

/-! ### Listing failure propagation (C2) -/

theorem mapExcept_error_of_mem {α β ε : Type} (f : α → Except ε β) {l : List α}
    {a : α} (ha : a ∈ l) {e : ε} (hf : f a = Except.error e) :
    ∃ e2, mapExcept f l = Except.error e2 := by
  induction l with
  | nil => cases ha
  | cons hd t ih =>
    rcases List.mem_cons.mp ha with rfl | hmem
    · exact ⟨e, by simp [mapExcept, hf]⟩
    · cases hfh : f hd with
      | error e2 => exact ⟨e2, by simp [mapExcept, hfh]⟩
      | ok b =>
        obtain ⟨e2, he2⟩ := ih hmem
        exact ⟨e2, by simp [mapExcept, hfh, he2]⟩

theorem mem_insertByIdDesc {x r : PayRaiseRow} {l : List PayRaiseRow} :
    x ∈ insertByIdDesc r l ↔ x = r ∨ x ∈ l := by
  induction l with
  | nil => simp [insertByIdDesc]
  | cons hd t ih =>
    simp only [insertByIdDesc]
    split
    · simp [List.mem_cons]
    · simp only [List.mem_cons, ih]
      tauto

theorem mem_sortByIdDesc {x : PayRaiseRow} {l : List PayRaiseRow} :
    x ∈ sortByIdDesc l ↔ x ∈ l := by
  induction l with
  | nil => exact Iff.rfl
  | cons hd t ih =>
    show x ∈ insertByIdDesc hd (sortByIdDesc t) ↔ _
    rw [mem_insertByIdDesc, ih]
    simp [List.mem_cons]

/-- A row of the query whose date, amount or comments blob fails to
decrypt forces `toUserView` to raise. -/
theorem toUserView_error_of_field_error (key : Nat) (p : EmployeeRow × PayRaiseRow)
    (hfail :
      decrypt_text key p.2.payraise_date_encrypted = Except.error DecryptError.invalidToken ∨
      decrypt_text key p.2.raiseamt_encrypted = Except.error DecryptError.invalidToken ∨
      decryptComments key p.2.comments_encrypted = Except.error DecryptError.invalidToken) :
    toUserView key p = Except.error DecryptError.invalidToken := by
  rcases hfail with h | h | h
  · simp [toUserView, h]
  · cases hd : decrypt_text key p.2.payraise_date_encrypted with
    | error e1 => cases e1; simp [toUserView, hd]
    | ok d => simp [toUserView, hd, h]
  · cases hd : decrypt_text key p.2.payraise_date_encrypted with
    | error e1 => cases e1; simp [toUserView, hd]
    | ok d =>
      cases ha : decrypt_text key p.2.raiseamt_encrypted with
      | error e2 => cases e2; simp [toUserView, hd, ha]
      | ok a => simp [toUserView, hd, ha, h]

/-- As above, for the all-users listing. -/
theorem toAllView_error_of_field_error (key : Nat) (p : EmployeeRow × PayRaiseRow)
    (hfail :
      decrypt_text key p.2.payraise_date_encrypted = Except.error DecryptError.invalidToken ∨
      decrypt_text key p.2.raiseamt_encrypted = Except.error DecryptError.invalidToken ∨
      decryptComments key p.2.comments_encrypted = Except.error DecryptError.invalidToken) :
    toAllView key p = Except.error DecryptError.invalidToken := by
  rcases hfail with h | h | h
  · simp [toAllView, h]
  · cases hd : decrypt_text key p.2.payraise_date_encrypted with
    | error e1 => cases e1; simp [toAllView, hd]
    | ok d => simp [toAllView, hd, h]
  · cases hd : decrypt_text key p.2.payraise_date_encrypted with
    | error e1 => cases e1; simp [toAllView, hd]
    | ok d =>
      cases ha : decrypt_text key p.2.raiseamt_encrypted with
      | error e2 => cases e2; simp [toAllView, hd, ha]
      | ok a => simp [toAllView, hd, ha, h]

/-- C2 counterexample: `corruptDb` holds two pay-raise rows, the second
with an amount blob that is not a valid token; both listing operations
abort entirely with the decryption error instead of returning an entry
(or placeholder) for every row. -/
theorem corrupt_row_fails_whole_listing :
    corruptDb.payraises.length = 2 ∧
    get_all_payraises 0 corruptDb = Except.error DecryptError.invalidToken ∧
    get_payraises_for_user 0 corruptDb 1 = Except.error DecryptError.invalidToken := by
  refine ⟨rfl, by decide, by decide⟩

/-- C2 amended: when any stored row visible to a listing has a sensitive
field that fails to decrypt, the exception propagates out of the row loop
and the whole listing fails — no per-record error marker is produced. -/
theorem listing_aborts_on_decrypt_failure (key uid : Nat) (db : Database)
    (r : PayRaiseRow) (e : EmployeeRow)
    (hr : r ∈ db.payraises) (hu : r.user_id = uid)
    (he : lookupEmployee db r.emp_id = some e)
    (hfail :
      decrypt_text key r.payraise_date_encrypted = Except.error DecryptError.invalidToken ∨
      decrypt_text key r.raiseamt_encrypted = Except.error DecryptError.invalidToken ∨
      decryptComments key r.comments_encrypted = Except.error DecryptError.invalidToken) :
    get_payraises_for_user key db uid = Except.error DecryptError.invalidToken ∧
    get_all_payraises key db = Except.error DecryptError.invalidToken := by
  have hmemU : (e, r) ∈ userQueryRows db uid := by
    apply List.mem_filterMap.mpr
    refine ⟨r, ?_, by simp [he]⟩
    rw [mem_sortByIdDesc]
    exact List.mem_filter.mpr ⟨hr, by simp [hu]⟩
  have hmemA : (e, r) ∈ allQueryRows db := by
    apply List.mem_filterMap.mpr
    refine ⟨r, ?_, by simp [he]⟩
    rw [mem_sortByIdDesc]
    exact hr
  constructor
  · obtain ⟨e2, h2⟩ :=
      mapExcept_error_of_mem (toUserView key) hmemU (toUserView_error_of_field_error key (e, r) hfail)
    cases e2
    exact h2
  · obtain ⟨e2, h2⟩ :=
      mapExcept_error_of_mem (toAllView key) hmemA (toAllView_error_of_field_error key (e, r) hfail)
    cases e2
    exact h2

/-- Witness for the amended C2 statement in `corruptDb`. -/
theorem listing_aborts_on_decrypt_failure_witness :
    get_payraises_for_user 0 corruptDb 1 = Except.error DecryptError.invalidToken ∧
    get_all_payraises 0 corruptDb = Except.error DecryptError.invalidToken :=
  listing_aborts_on_decrypt_failure 0 1 corruptDb
    { id := 2, emp_id := 1, user_id := 1,
      payraise_date_encrypted := encrypt_text 0 2 "2025-02-01",
      raiseamt_encrypted := CipherText.garbage 0,
      comments_encrypted := none }
    { id := 1, name := "Alice Admin", email := "alice.admin@example.com",
      department := "Executive", security_level := 1 }
    (by decide) rfl (by decide) (Or.inr (Or.inl rfl))

/-! ### Listing order (C8) -/

/-- Rows are stored in creation order with strictly increasing
AUTOINCREMENT ids. -/
def IdsIncreasing (rs : List PayRaiseRow) : Prop :=
  List.Pairwise (fun a b => a.id < b.id) rs

instance (rs : List PayRaiseRow) : Decidable (IdsIncreasing rs) :=
  inferInstanceAs (Decidable (List.Pairwise _ rs))

theorem insertByIdDesc_of_lt {r : PayRaiseRow} {l : List PayRaiseRow}
    (h : ∀ x ∈ l, r.id < x.id) : insertByIdDesc r l = l ++ [r] := by
  induction l with
  | nil => rfl
  | cons hd t ih =>
    have h1 : r.id < hd.id := h hd (List.mem_cons_self hd t)
    have h2 : ¬ hd.id ≤ r.id := by omega
    simp only [insertByIdDesc, if_neg h2, List.cons_append]
    rw [ih (fun x hx => h x (List.mem_cons_of_mem hd hx))]

/-- Insertion-sorting by descending id reverses a list whose ids strictly
increase. -/
theorem sortByIdDesc_eq_reverse {l : List PayRaiseRow} (h : IdsIncreasing l) :
    sortByIdDesc l = l.reverse := by
  induction l with
  | nil => rfl
  | cons hd t ih =>
    rcases List.pairwise_cons.mp h with ⟨hhd, ht⟩
    show insertByIdDesc hd (sortByIdDesc t) = (hd :: t).reverse
    rw [ih ht, List.reverse_cons]
    exact insertByIdDesc_of_lt (fun x hx => hhd x (List.mem_reverse.mp hx))

theorem joinEmployees_reverse (db : Database) (l : List PayRaiseRow) :
    joinEmployees db l.reverse = (joinEmployees db l).reverse := by
  simp [joinEmployees, List.filterMap_reverse]

/-- C8: in a store whose rows carry strictly increasing creation ids (as
AUTOINCREMENT assigns them), both listings process the joined rows in
exactly reversed creation order — most recently created first. -/
theorem listings_newest_first (key : Nat) (db : Database) (uid : Nat)
    (h : IdsIncreasing db.payraises) :
    get_payraises_for_user key db uid =
      mapExcept (toUserView key)
        ((joinEmployees db (db.payraises.filter fun r => r.user_id == uid)).reverse) ∧
    get_all_payraises key db =
      mapExcept (toAllView key) ((joinEmployees db db.payraises).reverse) := by
  constructor
  · simp only [get_payraises_for_user, userQueryRows]
    rw [sortByIdDesc_eq_reverse (List.Pairwise.filter _ h), joinEmployees_reverse]
  · simp only [get_all_payraises, allQueryRows]
    rw [sortByIdDesc_eq_reverse h, joinEmployees_reverse]

/-- Witness for C8 in the two-row store `corruptDb`. -/
theorem listings_newest_first_witness :
    IdsIncreasing corruptDb.payraises ∧
    (get_payraises_for_user 0 corruptDb 1 =
      mapExcept (toUserView 0)
        ((joinEmployees corruptDb (corruptDb.payraises.filter fun r => r.user_id == 1)).reverse) ∧
     get_all_payraises 0 corruptDb =
      mapExcept (toAllView 0) ((joinEmployees corruptDb corruptDb.payraises).reverse)) :=
  ⟨by decide, listings_newest_first 0 corruptDb 1 (by decide)⟩

/-! ### Amount formatting (C9) -/

/-- The store reached by a successful `create_payraise` call. -/
def oneRaiseDb : Database :=
  { employees := [], users := [],
    payraises :=
      [{ id := 1, emp_id := 1, user_id := 1,
         payraise_date_encrypted := encrypt_text 0 0 "2025-01-01",
         raiseamt_encrypted := encrypt_text 0 1 "12.50",
         comments_encrypted := none }],
    nextPayRaiseId := 2 }

/-- C9: the amount persisted by `create_payraise` and recovered by
decryption is the two-decimal rendering of the float amount — e.g. the
float 12.5 (`⟨125, 1⟩`) comes back as "12.50" — not the caller's original
amount string. -/
theorem created_amount_is_two_decimal_format (key nd na nc : Nat) (db : Database)
    (uid eid : Nat) (d : String) (a : PyNum) (c : Option String)
    (db2 : Database) (rid : Nat)
    (h : create_payraise key nd na nc db uid eid d a c = Except.ok (db2, rid)) :
    formatTwoDec (⟨125, 1⟩ : PyNum) = "12.50" ∧
    ∃ r, r ∈ db2.payraises ∧ r.id = rid ∧
      decrypt_text key r.raiseamt_encrypted = Except.ok (formatTwoDec a) := by
  refine ⟨by decide, ?_⟩
  simp only [create_payraise, sqliteInsertPayRaise, modelsForeignKeysOn,
    Bool.false_and, if_neg (by simp : ¬ (false = true)), Except.ok.injEq,
    Prod.mk.injEq] at h
  obtain ⟨hdb, hrid⟩ := h
  subst hdb
  subst hrid
  refine ⟨_, List.mem_append_right _ (List.mem_singleton.mpr rfl), rfl, ?_⟩
  rw [decrypt_encrypt_eq, pyStrip_formatTwoDec]

/-- Witness for C9: creating a pay raise with float amount 12.5 in the
empty store persists a row whose amount decrypts to "12.50". -/
theorem created_amount_is_two_decimal_format_witness :
    formatTwoDec (⟨125, 1⟩ : PyNum) = "12.50" ∧
    ∃ r, r ∈ oneRaiseDb.payraises ∧ r.id = 1 ∧
      decrypt_text 0 r.raiseamt_encrypted = Except.ok (formatTwoDec (⟨125, 1⟩ : PyNum)) :=
  created_amount_is_two_decimal_format 0 0 1 2 emptyDb 1 1 "2025-01-01" ⟨125, 1⟩ none
    oneRaiseDb 1 (by decide)

/-! ### Sessions without a linked employee (C10) -/

/-- C10: an authenticated session whose emp_id is None gets the uniform
"Page not found" outcome from a valid pay-raise submission, and the store
is unchanged — no pay-raise row is persisted. -/
theorem add_payraise_unlinked_user_not_found (key nd na nc : Nat) (sess : SessionData)
    (form : PayRaiseFormData) (db : Database)
    (hemp : sess.emp_id = none) (hform : form.errors = []) :
    add_payraise_post key nd na nc sess form db = (AddPayraiseResult.notFound, db) := by
  simp [add_payraise_post, hform, hemp]

/-- Witness for C10: a level-3 session with no employee link submitting a
valid form to the empty store. -/
theorem add_payraise_unlinked_user_not_found_witness :
    (payRaiseForm_from_mapping (some "2025-01-01") (some "1250.00") none).errors = [] ∧
    add_payraise_post 0 0 1 2 ⟨4, 3, none⟩
      (payRaiseForm_from_mapping (some "2025-01-01") (some "1250.00") none) emptyDb =
      (AddPayraiseResult.notFound, emptyDb) :=
  ⟨by decide,
   add_payraise_unlinked_user_not_found 0 0 1 2 ⟨4, 3, none⟩
     (payRaiseForm_from_mapping (some "2025-01-01") (some "1250.00") none) emptyDb
     rfl (by decide)⟩

end SecurePortal
